import Mathlib

/-
Shallow embedding of the room lifecycle and broadcast engine of
lan-text-web-chat (src/server/rooms.py).

Connections (fastapi WebSocket handles) are modelled as natural numbers
with identity semantics.  The network is modelled by an oracle
`Env.fails : WS → Bool` saying which connections' sends raise; `Env.now`
stands in for `utc_ts()` (defined in server/config.py, which is not part
of the core source; only the timestamp's presence matters here).  `jd`
(JSON encoding, also in server/config.py) is abstracted by the inductive
`Msg` carrying exactly the payload data the core computes.  Every send
attempt and close attempt is recorded in an event trace so that broadcast
side effects are observable.  Python dicts are embedded as association
lists preserving insertion order; sets as lists.  The asyncio timer map
`deletion_timers` is embedded as the list of room ids with a pending
timer; a timer firing corresponds to running `delayed_delete`
(`RoomManager._delayed_delete` in the source).
-/

namespace LanChat

/-- A connection handle (WebSocket), identity semantics. -/
abbrev WS := Nat

/-- Message payloads produced by the core, abstracting the JSON encoding
`jd` of server/config.py: users list, timestamped status line, room
directory. -/
inductive Msg where
  | users (names : List String)
  | status (text : String) (ts : Nat)
  | roomsList (ids : List String)
deriving DecidableEq

/-- Observable network side effects: a send attempt of a message to a
connection, and a close attempt on a connection. -/
inductive Event where
  | sent (ws : WS) (m : Msg)
  | closed (ws : WS)
deriving DecidableEq

/-- The external world: which connections' sends fail, and the current
timestamp returned by `utc_ts`. -/
structure Env where
  fails : WS → Bool
  now : Nat

/-- `Room` from src/server/rooms.py: `connections: dict[WebSocket, str]`,
an insertion-ordered map from connection to display name. -/
structure Room where
  connections : List (WS × String)
deriving DecidableEq

/-- The mutable state of `RoomManager` from src/server/rooms.py. -/
structure ManagerState where
  lobby_id : String
  rooms : List (String × Room)
  lobby_clients : List WS
  deletion_timers : List String
deriving DecidableEq

/-- Dict lookup on an association list (first matching key wins, as in a
Python dict where keys are unique). -/
def alookup {α β : Type} [DecidableEq α] (l : List (α × β)) (k : α) : Option β :=
  match l with
  | [] => none
  | (k', v) :: t => if k' = k then some v else alookup t k

/-- Dict assignment for a key already present: replace the value stored
under `k`, keeping insertion order. -/
def aset {α β : Type} [DecidableEq α] (l : List (α × β)) (k : α) (v : β) : List (α × β) :=
  l.map (fun p => if p.1 = k then (k, v) else p)

/-- `RoomManager.__init__(lobby_id)`: one lobby room, no lobby clients,
no pending deletion timers. -/
def RoomManager.init (lobby : String) : ManagerState :=
  { lobby_id := lobby
    rooms := [(lobby, ⟨[]⟩)]
    lobby_clients := []
    deletion_timers := [] }

/-- `RoomManager.exists(room_id)`: key membership in `rooms`.  (Named
with a trailing underscore because `exists` is reserved in Lean.) -/
def RoomManager.exists_ (s : ManagerState) (rid : String) : Bool :=
  decide (rid ∈ s.rooms.map Prod.fst)

/-- `RoomManager.create_error(room_id)`: validation pass, `None` meaning
no error. -/
def RoomManager.create_error (s : ManagerState) (rid : String) : Option String :=
  if rid = "" then some "bad_room"
  else if rid = s.lobby_id then some "reserved"
  else if RoomManager.exists_ s rid then some "room_exists"
  else none

/-- `RoomManager.create(room_id)`: insert a fresh empty room unless the
id is the lobby or already present; returns the success flag together
with the updated state. -/
def RoomManager.create (s : ManagerState) (rid : String) : Bool × ManagerState :=
  if rid = s.lobby_id ∨ rid ∈ s.rooms.map Prod.fst then (false, s)
  else (true, { s with rooms := s.rooms ++ [(rid, ⟨[]⟩)] })

/-- `RoomManager.delete(room_id)`: remove the room unless it is the
lobby; no occupancy check. -/
def RoomManager.delete (s : ManagerState) (rid : String) : ManagerState :=
  if rid ≠ s.lobby_id ∧ rid ∈ s.rooms.map Prod.fst then
    { s with rooms := s.rooms.filter (fun p => decide (p.1 ≠ rid)) }
  else s

/-- `RoomManager.list_rooms()`: all non-lobby room ids, sorted. -/
def RoomManager.list_rooms (s : ManagerState) : List String :=
  ((s.rooms.map Prod.fst).filter (fun r => decide (r ≠ s.lobby_id))).insertionSort (· ≤ ·)

/-- `RoomManager.users_payload(room_id)`: the `{"type":"users",...}`
payload built from the room's live connections map. -/
def RoomManager.users_payload (s : ManagerState) (rid : String) : Msg :=
  Msg.users (match alookup s.rooms rid with
    | some rr => rr.connections.map Prod.snd
    | none => [])

/-- `RoomManager.status(text)`: the `{"type":"status",...}` payload with
the current timestamp. -/
def RoomManager.status (env : Env) (text : String) : Msg :=
  Msg.status text env.now

/-- `RoomManager.safe_send_text(ws, message)`: one send attempt; on
failure the connection is also closed (best effort) and `False` is
reported. -/
def RoomManager.safe_send_text (env : Env) (ws : WS) (m : Msg) : Bool × List Event :=
  if env.fails ws then (false, [Event.sent ws m, Event.closed ws])
  else (true, [Event.sent ws m])

/-- `RoomManager.send_multi(targets, message)`: drive `safe_send_text`
over all targets (concurrently in the source; each send attempted
independently of the others' outcomes) and collect the connections whose
send reported failure. -/
def RoomManager.send_multi (env : Env) (targets : List WS) (m : Msg) :
    List WS × List Event :=
  if targets.isEmpty then ([], [])
  else
    let results := targets.map (fun ws => (ws, RoomManager.safe_send_text env ws m))
    let stale := (results.filter (fun p => p.2.1 == false)).map Prod.fst
    let evs := (results.map (fun p => p.2.2)).flatten
    (stale, evs)

/-- `RoomManager.broadcast_rooms()`: send the room directory to every
lobby client, dropping the ones whose send failed. -/
def RoomManager.broadcast_rooms (env : Env) (s : ManagerState) :
    ManagerState × List Event :=
  let m := Msg.roomsList (RoomManager.list_rooms s)
  let res := RoomManager.send_multi env s.lobby_clients m
  ({ s with lobby_clients := s.lobby_clients.filter (fun ws => decide (ws ∉ res.1)) },
   res.2)

/-- The fan-out list of `broadcast_room`: every connection of the room
except the excluded one (`not (exclude is not None and c is exclude)`). -/
def fanout (r : Room) (exclude : Option WS) : List WS :=
  (r.connections.map Prod.fst).filter
    (fun c => decide (¬(exclude ≠ none ∧ exclude = some c)))

/-- The stale-pruning loop of `broadcast_room`: pop every stale
connection from the room's map. -/
def pruneRoom (r : Room) (stale : List WS) : Room :=
  ⟨r.connections.filter (fun p => decide (p.1 ∉ stale))⟩

/-- The deferred-deletion scheduling at the end of `broadcast_room`: if
the room (now `r'`) is empty and not the lobby, and no timer is pending
for it, record a deletion timer. -/
def maybeScheduleTimer (s1 : ManagerState) (rid : String) (r' : Room) :
    ManagerState :=
  if r'.connections = [] ∧ rid ≠ s1.lobby_id then
    if rid ∉ s1.deletion_timers then
      { s1 with deletion_timers := s1.deletion_timers ++ [rid] }
    else s1
  else s1

/-- `RoomManager.broadcast_room(room_id, message, exclude)`: fan out to
every connection of the room except `exclude`, prune the stale ones, and
if the room ended up empty (and is not the lobby) schedule a deferred
deletion timer unless one is already pending. -/
def RoomManager.broadcast_room (env : Env) (s : ManagerState) (rid : String)
    (m : Msg) (exclude : Option WS) : ManagerState × List Event :=
  match alookup s.rooms rid with
  | none => (s, [])
  | some r =>
    let conns := fanout r exclude
    let res := RoomManager.send_multi env conns m
    let r' := pruneRoom r res.1
    let s1 := { s with rooms := aset s.rooms rid r' }
    (maybeScheduleTimer s1 rid r', res.2)

/-- `RoomManager.announce_users(room_id)`. -/
def RoomManager.announce_users (env : Env) (s : ManagerState) (rid : String) :
    ManagerState × List Event :=
  RoomManager.broadcast_room env s rid (RoomManager.users_payload s rid) none

/-- `RoomManager.announce_status(room_id, text, exclude)`. -/
def RoomManager.announce_status (env : Env) (s : ManagerState) (rid : String)
    (text : String) (exclude : Option WS) : ManagerState × List Event :=
  RoomManager.broadcast_room env s rid (RoomManager.status env text) exclude

/-- `RoomManager._delayed_delete(room_id)`: the body of a deferred
deletion timer when it fires — drop its own timer record, delete the
room unconditionally, broadcast the updated directory to the lobby. -/
def RoomManager.delayed_delete (env : Env) (s : ManagerState) (rid : String) :
    ManagerState × List Event :=
  let s1 :=
    if rid ∈ s.deletion_timers then
      { s with deletion_timers := s.deletion_timers.filter (fun t => decide (t ≠ rid)) }
    else s
  let s2 := RoomManager.delete s1 rid
  RoomManager.broadcast_rooms env s2

/-- `RoomManager.ensure_room(room_id)`: get-or-create; creating a
non-lobby room also broadcasts the updated directory to the lobby. -/
def RoomManager.ensure_room (env : Env) (s : ManagerState) (rid : String) :
    Option Room × ManagerState × List Event :=
  match alookup s.rooms rid with
  | some r => (some r, s, [])
  | none =>
    if rid = s.lobby_id then
      let s' := { s with rooms := s.rooms ++ [(s.lobby_id, (⟨[]⟩ : Room))] }
      (alookup s'.rooms s.lobby_id, s', [])
    else
      let s1 := (RoomManager.create s rid).2
      let res := RoomManager.broadcast_rooms env s1
      (alookup res.1.rooms rid, res.1, res.2)

/-- The tail of `user_left` after the departure announcement: if
occupants remain in the room (re-read from the live state), re-announce
the user list and the lobby directory. -/
def departureFollowup (env : Env) (s2 : ManagerState) (rid : String)
    (e1 : List Event) : ManagerState × List Event :=
  match alookup s2.rooms rid with
  | none => (s2, e1)
  | some r2 =>
    if r2.connections = [] then (s2, e1)
    else
      let res2 := RoomManager.announce_users env s2 rid
      let res3 := RoomManager.broadcast_rooms env res2.1
      (res3.1, e1 ++ res2.2 ++ res3.2)

/-- `RoomManager.user_left(room_id, ws, username)`: drop the connection
from the room, announce the departure, and if occupants remain also
re-announce the user list and the lobby directory. -/
def RoomManager.user_left (env : Env) (s : ManagerState) (rid : String)
    (ws : WS) (username : String) : ManagerState × List Event :=
  match alookup s.rooms rid with
  | none => (s, [])
  | some r =>
    let r1 : Room := ⟨r.connections.filter (fun p => decide (p.1 ≠ ws))⟩
    let s1 := { s with rooms := aset s.rooms rid r1 }
    let res1 := RoomManager.announce_status env s1 rid (username ++ " 已离开") none
    departureFollowup env res1.1 rid res1.2

/-- A gateway join (spec §6): joining is the gateway inserting the new
connection directly into `ensure_room(id).connections`; here given for a
room already present. -/
def joinRoom (s : ManagerState) (rid : String) (r : Room) (ws : WS)
    (name : String) : ManagerState :=
  { s with rooms := aset s.rooms rid ⟨r.connections ++ [(ws, name)]⟩ }

/-- One Room Manager operation, as a step of a transition system.  The
flag `withDelete` controls whether the explicit `delete` operation is in
the operation set.  A timer firing runs `delayed_delete` and requires
the timer to be pending. -/
inductive Step (withDelete : Bool) : ManagerState → ManagerState → Prop where
  | createOp (s : ManagerState) (rid : String) :
      Step withDelete s (RoomManager.create s rid).2
  | deleteOp (s : ManagerState) (rid : String) (h : withDelete = true) :
      Step withDelete s (RoomManager.delete s rid)
  | ensureOp (env : Env) (s : ManagerState) (rid : String) :
      Step withDelete s (RoomManager.ensure_room env s rid).2.1
  | broadcastOp (env : Env) (s : ManagerState) (rid : String) (m : Msg)
      (excl : Option WS) :
      Step withDelete s (RoomManager.broadcast_room env s rid m excl).1
  | broadcastDirOp (env : Env) (s : ManagerState) :
      Step withDelete s (RoomManager.broadcast_rooms env s).1
  | leftOp (env : Env) (s : ManagerState) (rid : String) (ws : WS) (name : String) :
      Step withDelete s (RoomManager.user_left env s rid ws name).1
  | fireOp (env : Env) (s : ManagerState) (rid : String)
      (h : rid ∈ s.deletion_timers) :
      Step withDelete s (RoomManager.delayed_delete env s rid).1
  | joinOp (s : ManagerState) (rid : String) (r : Room) (ws : WS) (name : String)
      (h : alookup s.rooms rid = some r) :
      Step withDelete s (joinRoom s rid r ws name)

/-- Reachability by a finite sequence of Room Manager operations. -/
inductive Reach (withDelete : Bool) : ManagerState → ManagerState → Prop where
  | refl (s : ManagerState) : Reach withDelete s s
  | tail {s t u : ManagerState} :
      Reach withDelete s t → Step withDelete t u → Reach withDelete s u

/-- The §3 invariant under scrutiny: every room id with a pending
deletion timer is still a key of `rooms`. -/
def TimersCovered (s : ManagerState) : Prop :=
  ∀ id ∈ s.deletion_timers, id ∈ s.rooms.map Prod.fst

/-- A fixed environment in which no send fails. -/
def env0 : Env := ⟨fun _ => false, 0⟩

/-- An environment in which exactly connection 1's sends fail. -/
def envF : Env := ⟨fun w => w == 1, 0⟩

/-- An environment in which exactly connection 2's sends fail. -/
def envF2 : Env := ⟨fun w => w == 2, 0⟩

/-- A manager with one occupied room `a` (connection 1, name `u`). -/
def cexState : ManagerState :=
  { lobby_id := "lobby"
    rooms := [("lobby", ⟨[]⟩), ("a", ⟨[(1, "u")]⟩)]
    lobby_clients := []
    deletion_timers := [] }

/-- A manager with one occupied room `b` (connection 3, name `u`) and
one lobby client. -/
def wState : ManagerState :=
  { lobby_id := "lobby"
    rooms := [("lobby", ⟨[]⟩), ("b", ⟨[(3, "u")]⟩)]
    lobby_clients := [5]
    deletion_timers := [] }

/-- A manager with an empty room `a` whose deletion timer is pending,
and one lobby client. -/
def timerState : ManagerState :=
  { lobby_id := "lobby"
    rooms := [("lobby", ⟨[]⟩), ("a", ⟨[]⟩)]
    lobby_clients := [4]
    deletion_timers := ["a"] }

/-- A manager with a room `a` holding connections 1 and 2. -/
def pruneState : ManagerState :=
  { lobby_id := "lobby"
    rooms := [("lobby", ⟨[]⟩), ("a", ⟨[(1, "x"), (2, "y")]⟩)]
    lobby_clients := []
    deletion_timers := [] }

/-- State reached from a fresh manager by: `create "a"`; a broadcast
into the (empty) room `"a"`, which schedules its deletion timer; then
an explicit `delete "a"`. -/
def orphanTimerState : ManagerState :=
  RoomManager.delete
    (RoomManager.broadcast_room env0
      (RoomManager.create (RoomManager.init "lobby") "a").2
      "a" (Msg.status "hi" 0) none).1
    "a"

theorem alookup_cons {α β : Type} [DecidableEq α] (k k' : α) (v : β)
    (t : List (α × β)) :
    alookup ((k', v) :: t) k = if k' = k then some v else alookup t k := rfl

theorem aset_cons {α β : Type} [DecidableEq α] (k k' : α) (v w : β)
    (t : List (α × β)) :
    aset ((k', w) :: t) k v =
      (if k' = k then (k, v) else (k', w)) :: aset t k v := by
  simp only [aset, List.map_cons]

theorem keys_aset {α β : Type} [DecidableEq α] (l : List (α × β)) (k : α)
    (v : β) : (aset l k v).map Prod.fst = l.map Prod.fst := by
  induction l with
  | nil => rfl
  | cons p t ih =>
    obtain ⟨k', w⟩ := p
    rw [aset_cons]
    by_cases h : k' = k
    · subst h
      simp [ih]
    · simp [h, ih]

theorem aset_of_not_mem {α β : Type} [DecidableEq α] (l : List (α × β))
    (k : α) (v : β) (h : k ∉ l.map Prod.fst) : aset l k v = l := by
  induction l with
  | nil => rfl
  | cons p t ih =>
    obtain ⟨k', w⟩ := p
    rw [List.map_cons, List.mem_cons] at h
    push_neg at h
    rw [aset_cons, if_neg (fun hh => h.1 hh.symm), ih h.2]

theorem alookup_aset_of_isSome {α β : Type} [DecidableEq α]
    (l : List (α × β)) (k : α) (v v' : β) (h : alookup l k = some v) :
    alookup (aset l k v') k = some v' := by
  induction l with
  | nil => simp [alookup] at h
  | cons p t ih =>
    obtain ⟨k', w⟩ := p
    by_cases hk : k' = k
    · subst hk
      rw [aset_cons, if_pos rfl, alookup_cons, if_pos rfl]
    · rw [alookup_cons, if_neg hk] at h
      rw [aset_cons, if_neg hk, alookup_cons, if_neg hk]
      exact ih h

theorem aset_self {α β : Type} [DecidableEq α] (l : List (α × β)) (k : α)
    (v : β) (hnd : (l.map Prod.fst).Nodup) (h : alookup l k = some v) :
    aset l k v = l := by
  induction l with
  | nil => rfl
  | cons p t ih =>
    obtain ⟨k', w⟩ := p
    rw [List.map_cons, List.nodup_cons] at hnd
    by_cases hk : k' = k
    · subst hk
      rw [alookup_cons, if_pos rfl, Option.some.injEq] at h
      subst h
      rw [aset_cons, if_pos rfl, aset_of_not_mem t _ _ hnd.1]
    · rw [alookup_cons, if_neg hk] at h
      rw [aset_cons, if_neg hk, ih hnd.2 h]

theorem alookup_isSome_iff_mem {α β : Type} [DecidableEq α]
    (l : List (α × β)) (k : α) :
    (alookup l k).isSome = true ↔ k ∈ l.map Prod.fst := by
  induction l with
  | nil => simp [alookup]
  | cons p t ih =>
    obtain ⟨k', v⟩ := p
    by_cases h : k' = k
    · subst h
      simp [alookup]
    · simp only [alookup, if_neg h, List.map_cons, List.mem_cons, ih]
      simp [Ne.symm h]

theorem alookup_eq_none_iff {α β : Type} [DecidableEq α]
    (l : List (α × β)) (k : α) :
    alookup l k = none ↔ k ∉ l.map Prod.fst := by
  rw [← alookup_isSome_iff_mem]
  cases alookup l k <;> simp

/-- C6: `create_error` evaluates its checks in precedence order:
empty id gives `bad_room`; else the lobby id gives `reserved`; else an
existing id gives `room_exists`; else no error. -/
theorem create_error_precedence (s : ManagerState) (rid : String) :
    (rid = "" → RoomManager.create_error s rid = some "bad_room") ∧
    (rid ≠ "" → rid = s.lobby_id →
      RoomManager.create_error s rid = some "reserved") ∧
    (rid ≠ "" → rid ≠ s.lobby_id → RoomManager.exists_ s rid = true →
      RoomManager.create_error s rid = some "room_exists") ∧
    (rid ≠ "" → rid ≠ s.lobby_id → RoomManager.exists_ s rid = false →
      RoomManager.create_error s rid = none) := by
  refine ⟨fun h0 => ?_, fun h0 h1 => ?_, fun h0 h1 h2 => ?_, fun h0 h1 h2 => ?_⟩
  · simp only [RoomManager.create_error, if_pos h0]
  · simp only [RoomManager.create_error, if_neg h0, if_pos h1]
  · simp only [RoomManager.create_error, if_neg h0, if_neg h1, if_pos h2]
  · simp only [RoomManager.create_error, if_neg h0, if_neg h1,
      if_neg (by simp [h2] : ¬RoomManager.exists_ s rid = true)]

/-- Witness for C6 at a concrete manager and id. -/
theorem create_error_precedence_witness :
    RoomManager.create_error (RoomManager.init "lobby") "lobby" = some "reserved" :=
  (create_error_precedence (RoomManager.init "lobby") "lobby").2.1
    (by decide) rfl

/-- C7: `create_error` answers `reserved` exactly on the lobby id
(the manager's lobby id being nonempty, as in the program where it is
the string `lobby`). -/
theorem create_error_reserved_iff (s : ManagerState) (r : String)
    (h : s.lobby_id ≠ "") :
    RoomManager.create_error s r = some "reserved" ↔ r = s.lobby_id := by
  unfold RoomManager.create_error
  by_cases h0 : r = ""
  · subst h0
    simp [Ne.symm h]
  · simp only [if_neg h0]
    by_cases h1 : r = s.lobby_id
    · simp [h1]
    · simp only [if_neg h1]
      by_cases h2 : RoomManager.exists_ s r <;> simp [h2, h1]

/-- Witness for C7 at the program's initial manager. -/
theorem create_error_reserved_iff_witness :
    RoomManager.create_error (RoomManager.init "lobby") "lobby" = some "reserved" ↔
      "lobby" = (RoomManager.init "lobby").lobby_id :=
  create_error_reserved_iff (RoomManager.init "lobby") "lobby" (by decide)

/-- C8: creating the lobby always fails and changes nothing; creating a
novel non-lobby id succeeds, appends a fresh empty room, and `exists_`
holds immediately afterwards. -/
theorem create_spec (s : ManagerState) (x : String) :
    RoomManager.create s s.lobby_id = (false, s) ∧
    (x ≠ s.lobby_id → RoomManager.exists_ s x = false →
      RoomManager.create s x =
        (true, { s with rooms := s.rooms ++ [(x, (⟨[]⟩ : Room))] }) ∧
      RoomManager.exists_ (RoomManager.create s x).2 x = true) := by
  refine ⟨by simp [RoomManager.create], fun h1 h2 => ?_⟩
  have h2' : x ∉ s.rooms.map Prod.fst := by
    simpa [RoomManager.exists_] using h2
  constructor
  · simp [RoomManager.create, h1, h2']
  · simp [RoomManager.create, RoomManager.exists_, h1, h2']

/-- Witness for C8 at a concrete manager and id. -/
theorem create_spec_witness :
    RoomManager.create (RoomManager.init "lobby") "a" =
      (true, { RoomManager.init "lobby" with
               rooms := (RoomManager.init "lobby").rooms ++ [("a", (⟨[]⟩ : Room))] }) :=
  ((create_spec (RoomManager.init "lobby") "a").2 (by decide) (by decide)).1

/-- C9: `ensure_room` on an existing room returns that room and changes
nothing; run twice in a row it returns the same room both times and the
second call broadcasts nothing and changes no state. -/
theorem ensure_room_idempotent (env : Env) (s : ManagerState) (x : String)
    (r : Room) (h : alookup s.rooms x = some r) :
    RoomManager.ensure_room env s x = (some r, s, []) ∧
    RoomManager.ensure_room env (RoomManager.ensure_room env s x).2.1 x =
      (some r, s, []) := by
  have h1 : RoomManager.ensure_room env s x = (some r, s, []) := by
    simp [RoomManager.ensure_room, h]
  exact ⟨h1, by rw [h1]; exact h1⟩

/-- Witness for C9 on the initial manager's lobby room. -/
theorem ensure_room_idempotent_witness :
    RoomManager.ensure_room env0 (RoomManager.init "lobby") "lobby" =
      ((some (⟨[]⟩ : Room)), RoomManager.init "lobby", []) :=
  (ensure_room_idempotent env0 (RoomManager.init "lobby") "lobby" ⟨[]⟩ rfl).1

/-- C10: broadcasting into an absent room is a total no-op: the state is
returned unchanged (no pruning, no timer scheduled) and no send event is
produced. -/
theorem broadcast_room_absent_noop (env : Env) (s : ManagerState) (rid : String)
    (m : Msg) (excl : Option WS) (h : alookup s.rooms rid = none) :
    RoomManager.broadcast_room env s rid m excl = (s, []) := by
  simp [RoomManager.broadcast_room, h]

/-- Witness for C10: broadcasting into the absent room `a`. -/
theorem broadcast_room_absent_noop_witness :
    RoomManager.broadcast_room env0 (RoomManager.init "lobby") "a"
      (Msg.status "hi" 0) none = (RoomManager.init "lobby", []) :=
  broadcast_room_absent_noop env0 (RoomManager.init "lobby") "a"
    (Msg.status "hi" 0) none (by decide)

theorem send_multi_stale_aux (env : Env) (m : Msg) (ts : List WS) :
    ((ts.map (fun ws => (ws, RoomManager.safe_send_text env ws m))).filter
      (fun p => p.2.1 == false)).map Prod.fst = ts.filter env.fails := by
  induction ts with
  | nil => rfl
  | cons hd tl ih =>
    rw [List.map_cons, List.filter_cons]
    have h1 : (((hd, RoomManager.safe_send_text env hd m) :
        WS × Bool × List Event).2.1 == false) = env.fails hd := by
      unfold RoomManager.safe_send_text
      cases env.fails hd <;> rfl
    cases hfail : env.fails hd
    · rw [if_neg (by rw [h1, hfail]; simp), ih, List.filter_cons, hfail]
      simp
    · rw [if_pos (by rw [h1, hfail]), List.map_cons, ih, List.filter_cons, hfail]
      simp

theorem send_multi_stale (env : Env) (ts : List WS) (m : Msg) :
    (RoomManager.send_multi env ts m).1 = ts.filter env.fails := by
  unfold RoomManager.send_multi
  by_cases he : ts.isEmpty
  · rw [if_pos he]
    rw [List.isEmpty_iff] at he
    simp [he]
  · rw [if_neg he]
    exact send_multi_stale_aux env m ts

theorem send_multi_attempts (env : Env) (ts : List WS) (m : Msg) (ws : WS)
    (h : ws ∈ ts) :
    Event.sent ws m ∈ (RoomManager.send_multi env ts m).2 := by
  unfold RoomManager.send_multi
  rw [if_neg (by rw [List.isEmpty_iff]; exact List.ne_nil_of_mem h)]
  show Event.sent ws m ∈
    ((ts.map (fun w => (w, RoomManager.safe_send_text env w m))).map
      (fun p => p.2.2)).flatten
  rw [List.mem_flatten]
  refine ⟨(RoomManager.safe_send_text env ws m).2, ?_, ?_⟩
  · rw [List.map_map]
    exact List.mem_map_of_mem _ h
  · unfold RoomManager.safe_send_text
    cases env.fails ws <;> simp

theorem send_multi_events_ok_aux (env : Env) (m : Msg) (ts : List WS)
    (h : ∀ w ∈ ts, env.fails w = false) :
    ((ts.map (fun w => (w, RoomManager.safe_send_text env w m))).map
      (fun p => p.2.2)).flatten = ts.map (fun w => Event.sent w m) := by
  induction ts with
  | nil => rfl
  | cons hd tl ih =>
    have hh := h hd (List.mem_cons_self hd tl)
    rw [List.map_cons, List.map_cons, List.flatten_cons,
      ih (fun w hw => h w (List.mem_cons_of_mem _ hw)), List.map_cons]
    show (RoomManager.safe_send_text env hd m).2 ++ _ = _
    rw [RoomManager.safe_send_text, if_neg (by simp [hh])]
    rfl

theorem send_multi_ok (env : Env) (ts : List WS) (m : Msg)
    (h : ∀ w ∈ ts, env.fails w = false) :
    RoomManager.send_multi env ts m =
      ([], ts.map (fun w => Event.sent w m)) := by
  unfold RoomManager.send_multi
  by_cases he : ts.isEmpty
  · rw [if_pos he]
    rw [List.isEmpty_iff] at he
    simp [he]
  · rw [if_neg he]
    refine Prod.ext ?_ ?_
    · show ((ts.map _).filter _).map Prod.fst = []
      rw [send_multi_stale_aux]
      exact List.filter_eq_nil_iff.mpr (fun w hw => by simp [h w hw])
    · exact send_multi_events_ok_aux env m ts h

/-- C5: `send_multi` returns exactly the connections whose send failed
(the failing ones of the fan-out list, in order, no more and no fewer),
and every connection of the fan-out receives a send attempt regardless
of any other connection's failure. -/
theorem send_multi_exact_failures (env : Env) (ts : List WS) (m : Msg) :
    (RoomManager.send_multi env ts m).1 = ts.filter env.fails ∧
    ∀ ws ∈ ts, Event.sent ws m ∈ (RoomManager.send_multi env ts m).2 :=
  ⟨send_multi_stale env ts m, fun ws h => send_multi_attempts env ts m ws h⟩

/-- Witness for C5: with connection 2 failing, connection 1 is still
attempted and exactly connection 2 is reported stale. -/
theorem send_multi_exact_failures_witness :
    (RoomManager.send_multi envF2 [1, 2] (Msg.status "hi" 0)).1 =
      [1, 2].filter envF2.fails ∧
    Event.sent 1 (Msg.status "hi" 0) ∈
      (RoomManager.send_multi envF2 [1, 2] (Msg.status "hi" 0)).2 :=
  ⟨(send_multi_exact_failures envF2 [1, 2] (Msg.status "hi" 0)).1,
   (send_multi_exact_failures envF2 [1, 2] (Msg.status "hi" 0)).2 1 (by decide)⟩

theorem maybeScheduleTimer_rooms (s1 : ManagerState) (rid : String)
    (r' : Room) : (maybeScheduleTimer s1 rid r').rooms = s1.rooms := by
  unfold maybeScheduleTimer
  split
  · split <;> rfl
  · rfl

theorem maybeScheduleTimer_lobby_clients (s1 : ManagerState) (rid : String)
    (r' : Room) :
    (maybeScheduleTimer s1 rid r').lobby_clients = s1.lobby_clients := by
  unfold maybeScheduleTimer
  split
  · split <;> rfl
  · rfl

theorem broadcast_room_eq (env : Env) (s : ManagerState) (rid : String)
    (m : Msg) (excl : Option WS) (r : Room)
    (h : alookup s.rooms rid = some r) :
    RoomManager.broadcast_room env s rid m excl =
      (maybeScheduleTimer
        { s with
          rooms := aset s.rooms rid
            (pruneRoom r ((fanout r excl).filter env.fails)) }
        rid (pruneRoom r ((fanout r excl).filter env.fails)),
       (RoomManager.send_multi env (fanout r excl) m).2) := by
  unfold RoomManager.broadcast_room
  rw [h]
  simp only [send_multi_stale]

theorem mem_fanout (r : Room) (excl : Option WS) (ws : WS) :
    ws ∈ fanout r excl ↔
      ws ∈ r.connections.map Prod.fst ∧ excl ≠ some ws := by
  unfold fanout
  simp only [List.mem_filter, decide_eq_true_eq]
  constructor
  · rintro ⟨h1, h2⟩
    exact ⟨h1, fun hx => h2 ⟨by simp [hx], hx⟩⟩
  · rintro ⟨h1, h2⟩
    exact ⟨h1, fun hx => h2 hx.2⟩

theorem mem_pruneRoom_keys (r : Room) (stale : List WS) (ws : WS) :
    ws ∈ (pruneRoom r stale).connections.map Prod.fst ↔
      ws ∈ r.connections.map Prod.fst ∧ ws ∉ stale := by
  unfold pruneRoom
  simp only [List.mem_map, List.mem_filter, decide_eq_true_eq]
  constructor
  · rintro ⟨p, ⟨hp, hst⟩, rfl⟩
    exact ⟨⟨p, hp, rfl⟩, hst⟩
  · rintro ⟨⟨p, hp, rfl⟩, hst⟩
    exact ⟨p, ⟨hp, hst⟩, rfl⟩

/-- C1: after a broadcast into an existing room, every connection of the
registry whose send succeeded, or that was excluded from the fan-out, is
still a key of the room's connections, and every connection whose send
failed has been removed. -/
theorem broadcast_room_prunes_exactly (env : Env) (s : ManagerState)
    (rid : String) (m : Msg) (excl : Option WS) (r : Room)
    (h : alookup s.rooms rid = some r) :
    ∃ r', alookup (RoomManager.broadcast_room env s rid m excl).1.rooms rid
        = some r' ∧
      ∀ ws ∈ r.connections.map Prod.fst,
        ((excl = some ws ∨ env.fails ws = false) →
          ws ∈ r'.connections.map Prod.fst) ∧
        (excl ≠ some ws → env.fails ws = true →
          ws ∉ r'.connections.map Prod.fst) := by
  rw [broadcast_room_eq env s rid m excl r h]
  refine ⟨pruneRoom r ((fanout r excl).filter env.fails), ?_, ?_⟩
  · rw [maybeScheduleTimer_rooms]
    exact alookup_aset_of_isSome _ _ _ _ h
  · intro ws hws
    have hstale : ws ∈ (fanout r excl).filter env.fails ↔
        (ws ∈ r.connections.map Prod.fst ∧ excl ≠ some ws) ∧
          env.fails ws = true := by
      rw [List.mem_filter, mem_fanout]
    constructor
    · intro hcase
      rw [mem_pruneRoom_keys]
      refine ⟨hws, fun hmem => ?_⟩
      rw [hstale] at hmem
      rcases hcase with hex | hfl
      · exact hmem.1.2 hex
      · rw [hmem.2] at hfl
        cases hfl
    · intro hex hfl hmem
      rw [mem_pruneRoom_keys] at hmem
      exact hmem.2 (hstale.mpr ⟨⟨hws, hex⟩, hfl⟩)

/-- Witness for C1: room `a` holds connections 1 and 2, connection 2's
send fails; after the broadcast, 1 stays and 2 is gone. -/
theorem broadcast_room_prunes_exactly_witness :
    ∃ r', alookup (RoomManager.broadcast_room envF2 pruneState "a"
        (Msg.status "m" 0) none).1.rooms "a" = some r' ∧
      ∀ ws ∈ (Room.mk [(1, "x"), (2, "y")]).connections.map Prod.fst,
        ((none = some ws ∨ envF2.fails ws = false) →
          ws ∈ r'.connections.map Prod.fst) ∧
        ((none : Option WS) ≠ some ws → envF2.fails ws = true →
          ws ∉ r'.connections.map Prod.fst) :=
  broadcast_room_prunes_exactly envF2 pruneState "a" (Msg.status "m" 0) none
    (Room.mk [(1, "x"), (2, "y")]) rfl

theorem mem_keys_filter_ne (l : List (String × Room)) (rid k : String) :
    k ∈ (l.filter (fun p => decide (p.1 ≠ rid))).map Prod.fst ↔
      k ∈ l.map Prod.fst ∧ k ≠ rid := by
  simp only [List.mem_map, List.mem_filter, decide_eq_true_eq]
  constructor
  · rintro ⟨p, ⟨hp, hne⟩, rfl⟩
    exact ⟨⟨p, hp, rfl⟩, hne⟩
  · rintro ⟨⟨p, hp, rfl⟩, hne⟩
    exact ⟨p, ⟨hp, hne⟩, rfl⟩

theorem delete_lookup_self (s : ManagerState) (rid : String)
    (hl : rid ≠ s.lobby_id) :
    alookup (RoomManager.delete s rid).rooms rid = none := by
  unfold RoomManager.delete
  split
  · rw [alookup_eq_none_iff]
    intro hmem
    exact ((mem_keys_filter_ne _ _ _).mp hmem).2 rfl
  · rename_i hcond
    rw [alookup_eq_none_iff]
    intro hmem
    exact hcond ⟨hl, hmem⟩

theorem delete_timers (s : ManagerState) (rid : String) :
    (RoomManager.delete s rid).deletion_timers = s.deletion_timers := by
  unfold RoomManager.delete
  split <;> rfl

theorem delete_lobby_clients (s : ManagerState) (rid : String) :
    (RoomManager.delete s rid).lobby_clients = s.lobby_clients := by
  unfold RoomManager.delete
  split <;> rfl

theorem delete_lobby_id (s : ManagerState) (rid : String) :
    (RoomManager.delete s rid).lobby_id = s.lobby_id := by
  unfold RoomManager.delete
  split <;> rfl

theorem broadcast_rooms_state (env : Env) (s : ManagerState) :
    (RoomManager.broadcast_rooms env s).1.rooms = s.rooms ∧
    (RoomManager.broadcast_rooms env s).1.deletion_timers = s.deletion_timers ∧
    (RoomManager.broadcast_rooms env s).1.lobby_id = s.lobby_id :=
  ⟨rfl, rfl, rfl⟩

/-- C2: when a pending deletion timer for a non-lobby room fires, its
timer record is gone, the room is deleted from the map regardless of its
occupancy at fire time, and the room directory (no longer listing the
room) is broadcast to every lobby subscriber. -/
theorem delayed_delete_fires (env : Env) (s : ManagerState) (rid : String)
    (hl : rid ≠ s.lobby_id) (ht : rid ∈ s.deletion_timers) :
    rid ∉ (RoomManager.delayed_delete env s rid).1.deletion_timers ∧
    alookup (RoomManager.delayed_delete env s rid).1.rooms rid = none ∧
    rid ∉ RoomManager.list_rooms (RoomManager.delayed_delete env s rid).1 ∧
    ∀ ws ∈ s.lobby_clients,
      Event.sent ws
          (Msg.roomsList
            (RoomManager.list_rooms (RoomManager.delayed_delete env s rid).1))
        ∈ (RoomManager.delayed_delete env s rid).2 := by
  have hdd : RoomManager.delayed_delete env s rid =
      RoomManager.broadcast_rooms env
        (RoomManager.delete
          { s with deletion_timers :=
              s.deletion_timers.filter (fun t => decide (t ≠ rid)) } rid) := by
    unfold RoomManager.delayed_delete
    rw [if_pos ht]
  rw [hdd]
  have hlook : alookup
      (RoomManager.delete
        { s with deletion_timers :=
            s.deletion_timers.filter (fun t => decide (t ≠ rid)) } rid).rooms
      rid = none :=
    delete_lookup_self _ rid hl
  refine ⟨?_, ?_, ?_, ?_⟩
  · rw [(broadcast_rooms_state env _).2.1, delete_timers]
    simp
  · rw [(broadcast_rooms_state env _).1]
    exact hlook
  · intro hmem
    rw [RoomManager.list_rooms, List.mem_insertionSort, List.mem_filter,
      (broadcast_rooms_state env _).1] at hmem
    rw [alookup_eq_none_iff] at hlook
    exact hlook hmem.1
  · intro ws hws
    have hcl : (RoomManager.delete
        { s with deletion_timers :=
            s.deletion_timers.filter (fun t => decide (t ≠ rid)) } rid).lobby_clients
        = s.lobby_clients := delete_lobby_clients _ rid
    show Event.sent ws _ ∈
      (RoomManager.send_multi env _ (Msg.roomsList (RoomManager.list_rooms _))).2
    apply send_multi_attempts
    rw [hcl]
    exact hws

/-- Witness for C2: a pending timer for the empty room `a` fires; the
room and the timer record are both gone afterwards. -/
theorem delayed_delete_fires_witness :
    "a" ∉ (RoomManager.delayed_delete env0 timerState "a").1.deletion_timers ∧
    alookup (RoomManager.delayed_delete env0 timerState "a").1.rooms "a" =
      none :=
  ⟨(delayed_delete_fires env0 timerState "a" (by decide) (by decide)).1,
   (delayed_delete_fires env0 timerState "a" (by decide) (by decide)).2.1⟩

theorem fanout_none (r : Room) : fanout r none = r.connections.map Prod.fst := by
  unfold fanout
  exact List.filter_eq_self.mpr (fun a _ => by simp)

theorem pruneRoom_nil (r : Room) : pruneRoom r [] = r := by
  unfold pruneRoom
  have h : r.connections.filter (fun p => decide (p.1 ∉ ([] : List WS))) =
      r.connections :=
    List.filter_eq_self.mpr (fun a _ => by simp)
  rw [h]

theorem manager_eta (s : ManagerState) :
    (ManagerState.mk s.lobby_id s.rooms s.lobby_clients s.deletion_timers) = s :=
  rfl

theorem broadcast_room_ok (env : Env) (s : ManagerState) (rid : String)
    (m : Msg) (r : Room) (hnd : (s.rooms.map Prod.fst).Nodup)
    (h : alookup s.rooms rid = some r) (hne : r.connections ≠ [])
    (hok : ∀ w, env.fails w = false) :
    RoomManager.broadcast_room env s rid m none =
      (s, (r.connections.map Prod.fst).map (fun w => Event.sent w m)) := by
  rw [broadcast_room_eq env s rid m none r h]
  have hstale : (fanout r none).filter env.fails = [] :=
    List.filter_eq_nil_iff.mpr (fun w _ => by simp [hok w])
  rw [hstale, pruneRoom_nil, aset_self s.rooms rid r hnd h]
  have hsched : maybeScheduleTimer s rid r = s := by
    unfold maybeScheduleTimer
    rw [if_neg (fun hc => hne hc.1)]
  rw [manager_eta, hsched, fanout_none,
    send_multi_ok env _ m (fun w _ => hok w)]

theorem broadcast_rooms_ok (env : Env) (s : ManagerState)
    (hok : ∀ w, env.fails w = false) :
    RoomManager.broadcast_rooms env s =
      (s, s.lobby_clients.map
        (fun w => Event.sent w (Msg.roomsList (RoomManager.list_rooms s)))) := by
  unfold RoomManager.broadcast_rooms
  simp only [send_multi_ok env s.lobby_clients
    (Msg.roomsList (RoomManager.list_rooms s)) (fun w _ => hok w)]
  simp [List.filter_eq_self]

/-- C3 (amended): for an existing, occupied room and a connection absent
from it, when no send fails `user_left` changes no manager state, and
its only side effects are the broadcasts the remaining-occupant branch
dictates: the departure status to the occupants, the user list to the
occupants, and the room directory to the lobby clients. -/
theorem user_left_absent (env : Env) (s : ManagerState) (rid : String)
    (ws : WS) (name : String) (r : Room)
    (hnd : (s.rooms.map Prod.fst).Nodup)
    (h : alookup s.rooms rid = some r)
    (hne : r.connections ≠ [])
    (hws : ws ∉ r.connections.map Prod.fst)
    (hok : ∀ w, env.fails w = false) :
    (RoomManager.user_left env s rid ws name).1 = s ∧
    (RoomManager.user_left env s rid ws name).2 =
      (r.connections.map Prod.fst).map
        (fun w => Event.sent w (Msg.status (name ++ " 已离开") env.now)) ++
      (r.connections.map Prod.fst).map
        (fun w => Event.sent w (Msg.users (r.connections.map Prod.snd))) ++
      s.lobby_clients.map
        (fun w => Event.sent w (Msg.roomsList (RoomManager.list_rooms s))) := by
  have hfilter : r.connections.filter (fun p => decide (p.1 ≠ ws)) =
      r.connections :=
    List.filter_eq_self.mpr (fun a ha => by
      rw [decide_eq_true_eq]
      intro hcontra
      exact hws (hcontra ▸ List.mem_map_of_mem Prod.fst ha))
  have hs1 : aset s.rooms rid
      (⟨r.connections.filter (fun p => decide (p.1 ≠ ws))⟩ : Room) = s.rooms := by
    rw [hfilter]
    exact aset_self s.rooms rid r hnd h
  have hstat : RoomManager.announce_status env s rid (name ++ " 已离开") none =
      (s, (r.connections.map Prod.fst).map
        (fun w => Event.sent w (Msg.status (name ++ " 已离开") env.now))) := by
    unfold RoomManager.announce_status RoomManager.status
    exact broadcast_room_ok env s rid _ r hnd h hne hok
  have husers : RoomManager.announce_users env s rid =
      (s, (r.connections.map Prod.fst).map
        (fun w => Event.sent w (Msg.users (r.connections.map Prod.snd)))) := by
    unfold RoomManager.announce_users RoomManager.users_payload
    rw [h]
    exact broadcast_room_ok env s rid _ r hnd h hne hok
  unfold RoomManager.user_left departureFollowup
  simp only [h, hfilter, aset_self s.rooms rid r hnd h, hstat, if_neg hne,
    husers, broadcast_rooms_ok env s hok]
  refine ⟨?_, ?_⟩ <;> first | rfl | trivial

/-- Counterexample to C3 as stated: room `a` exists and connection 7 is
not in it, yet `user_left` is not a state no-op — the departure-status
broadcast fails for occupant 1, which is pruned as stale, and a deletion
timer for `a` is scheduled. -/
theorem user_left_absent_counterexample :
    alookup cexState.rooms "a" = some ⟨[(1, "u")]⟩ ∧
    (7 : WS) ∉ ((Room.mk [(1, "u")]).connections.map Prod.fst) ∧
    (RoomManager.user_left envF cexState "a" 7 "bob").1 ≠ cexState := by
  refine ⟨rfl, by decide, by decide⟩

/-- Witness for C3's amended theorem at a concrete occupied room. -/
theorem user_left_absent_witness :
    (RoomManager.user_left env0 wState "b" 9 "bob").1 = wState :=
  (user_left_absent env0 wState "b" 9 "bob" ⟨[(3, "u")]⟩ (by decide) rfl
    (by decide) (by decide) (fun w => rfl)).1

theorem broadcast_room_none (env : Env) (s : ManagerState) (rid : String)
    (m : Msg) (excl : Option WS) (h : alookup s.rooms rid = none) :
    RoomManager.broadcast_room env s rid m excl = (s, []) := by
  simp [RoomManager.broadcast_room, h]

theorem mem_keys_append_left (l x : List (String × Room)) (k : String)
    (h : k ∈ l.map Prod.fst) : k ∈ (l ++ x).map Prod.fst := by
  rw [List.map_append]
  exact List.mem_append_left _ h

theorem timersCovered_create (s : ManagerState) (rid : String)
    (h : TimersCovered s) : TimersCovered (RoomManager.create s rid).2 := by
  unfold RoomManager.create
  by_cases hc : rid = s.lobby_id ∨ rid ∈ s.rooms.map Prod.fst
  · rw [if_pos hc]
    exact h
  · rw [if_neg hc]
    intro id hid
    exact mem_keys_append_left _ _ _ (h id hid)

theorem timersCovered_mst (s1 : ManagerState) (rid : String) (r' : Room)
    (hrid : rid ∈ s1.rooms.map Prod.fst) (h : TimersCovered s1) :
    TimersCovered (maybeScheduleTimer s1 rid r') := by
  unfold maybeScheduleTimer
  split
  · split
    · intro id hid
      rw [List.mem_append] at hid
      rcases hid with hid | hid
      · exact h id hid
      · rw [List.mem_singleton] at hid
        subst hid
        exact hrid
    · exact h
  · exact h

theorem timersCovered_broadcast_room (env : Env) (s : ManagerState)
    (rid : String) (m : Msg) (excl : Option WS) (h : TimersCovered s) :
    TimersCovered (RoomManager.broadcast_room env s rid m excl).1 := by
  cases halk : alookup s.rooms rid with
  | none =>
    rw [broadcast_room_none env s rid m excl halk]
    exact h
  | some r =>
    rw [broadcast_room_eq env s rid m excl r halk]
    apply timersCovered_mst
    · show rid ∈ (aset s.rooms rid _).map Prod.fst
      rw [keys_aset, ← alookup_isSome_iff_mem, halk]
      rfl
    · intro id hid
      show id ∈ (aset s.rooms rid _).map Prod.fst
      rw [keys_aset]
      exact h id hid

theorem timersCovered_broadcast_rooms (env : Env) (s : ManagerState)
    (h : TimersCovered s) :
    TimersCovered (RoomManager.broadcast_rooms env s).1 := by
  intro id hid
  rw [(broadcast_rooms_state env s).2.1] at hid
  rw [(broadcast_rooms_state env s).1]
  exact h id hid

theorem timersCovered_ensure (env : Env) (s : ManagerState) (rid : String)
    (h : TimersCovered s) :
    TimersCovered (RoomManager.ensure_room env s rid).2.1 := by
  unfold RoomManager.ensure_room
  cases halk : alookup s.rooms rid with
  | some r =>
    simp only [halk]
    exact h
  | none =>
    simp only [halk]
    by_cases hlob : rid = s.lobby_id
    · rw [if_pos hlob]
      intro id hid
      exact mem_keys_append_left _ _ _ (h id hid)
    · rw [if_neg hlob]
      exact timersCovered_broadcast_rooms env _ (timersCovered_create s rid h)

theorem timersCovered_followup (env : Env) (s2 : ManagerState) (rid : String)
    (e1 : List Event) (h : TimersCovered s2) :
    TimersCovered (departureFollowup env s2 rid e1).1 := by
  unfold departureFollowup
  cases halk : alookup s2.rooms rid with
  | none =>
    simp only [halk]
    exact h
  | some r2 =>
    simp only [halk]
    by_cases hc : r2.connections = []
    · rw [if_pos hc]
      exact h
    · rw [if_neg hc]
      exact timersCovered_broadcast_rooms env _
        (timersCovered_broadcast_room env s2 rid _ none h)

theorem timersCovered_user_left (env : Env) (s : ManagerState) (rid : String)
    (ws : WS) (name : String) (h : TimersCovered s) :
    TimersCovered (RoomManager.user_left env s rid ws name).1 := by
  unfold RoomManager.user_left
  cases halk : alookup s.rooms rid with
  | none =>
    simp only [halk]
    exact h
  | some r =>
    simp only [halk]
    apply timersCovered_followup
    apply timersCovered_broadcast_room
    intro id hid
    show id ∈ (aset s.rooms rid _).map Prod.fst
    rw [keys_aset]
    exact h id hid

theorem timersCovered_delayed_delete (env : Env) (s : ManagerState)
    (rid : String) (h : TimersCovered s) :
    TimersCovered (RoomManager.delayed_delete env s rid).1 := by
  unfold RoomManager.delayed_delete
  apply timersCovered_broadcast_rooms
  by_cases ht : rid ∈ s.deletion_timers
  · rw [if_pos ht]
    unfold RoomManager.delete
    split
    · intro id hid
      have hid' : id ∈ s.deletion_timers ∧ id ≠ rid := by
        simpa using hid
      show id ∈ (List.filter _ s.rooms).map Prod.fst
      exact (mem_keys_filter_ne s.rooms rid id).mpr ⟨h id hid'.1, hid'.2⟩
    · intro id hid
      have hid' : id ∈ s.deletion_timers := by
        have : id ∈ s.deletion_timers.filter (fun t => decide (t ≠ rid)) := hid
        exact (List.mem_filter.mp this).1
      exact h id hid'
  · rw [if_neg ht]
    unfold RoomManager.delete
    split
    · rename_i hcond
      intro id hid
      have hne : id ≠ rid := fun he => ht (he ▸ hid)
      show id ∈ (List.filter _ s.rooms).map Prod.fst
      exact (mem_keys_filter_ne s.rooms rid id).mpr ⟨h id hid, hne⟩
    · exact h

theorem timersCovered_join (s : ManagerState) (rid : String) (r : Room)
    (ws : WS) (name : String) (h : TimersCovered s) :
    TimersCovered (joinRoom s rid r ws name) := by
  intro id hid
  show id ∈ (aset s.rooms rid _).map Prod.fst
  rw [keys_aset]
  exact h id hid

theorem timersCovered_step {s t : ManagerState} (h : TimersCovered s)
    (hs : Step false s t) : TimersCovered t := by
  cases hs with
  | createOp s rid => exact timersCovered_create s rid h
  | deleteOp s rid hw => cases hw
  | ensureOp env s rid => exact timersCovered_ensure env s rid h
  | broadcastOp env s rid m excl =>
    exact timersCovered_broadcast_room env s rid m excl h
  | broadcastDirOp env s => exact timersCovered_broadcast_rooms env s h
  | leftOp env s rid ws name => exact timersCovered_user_left env s rid ws name h
  | fireOp env s rid hp => exact timersCovered_delayed_delete env s rid h
  | joinOp s rid r ws name hp => exact timersCovered_join s rid r ws name h

/-- C4 (amended): starting from a fresh manager, every state reachable
by create, join, ensure_room, broadcast_room, broadcast_rooms,
user_left and timer firings — the explicit `delete` operation excluded —
satisfies the invariant: every room id with a pending deletion timer is
still present in `rooms`. -/
theorem reach_timersCovered (lobby : String) (s : ManagerState)
    (h : Reach false (RoomManager.init lobby) s) : TimersCovered s := by
  induction h with
  | refl =>
    intro id hid
    cases hid
  | tail hr hstep ih => exact timersCovered_step ih hstep

/-- Witness for C4's amended theorem: the initial state is reachable and
satisfies the invariant. -/
theorem reach_timersCovered_witness : TimersCovered (RoomManager.init "lobby") :=
  reach_timersCovered "lobby" (RoomManager.init "lobby")
    (Reach.refl (RoomManager.init "lobby"))

/-- Counterexample to C4 as stated: with the explicit `delete` operation
in the operation set (as the claim lists it), a state is reachable in
which room `a` is absent from `rooms` while its deletion timer is still
pending — `delete` does not clean up `deletion_timers`. -/
theorem reach_orphan_timer_counterexample :
    Reach true (RoomManager.init "lobby") orphanTimerState ∧
    "a" ∈ orphanTimerState.deletion_timers ∧
    "a" ∉ orphanTimerState.rooms.map Prod.fst := by
  refine ⟨?_, by decide, by decide⟩
  exact Reach.tail
    (Reach.tail
      (Reach.tail (Reach.refl (RoomManager.init "lobby"))
        (Step.createOp (RoomManager.init "lobby") "a"))
      (Step.broadcastOp env0 (RoomManager.create (RoomManager.init "lobby") "a").2
        "a" (Msg.status "hi" 0) none))
    (Step.deleteOp
      (RoomManager.broadcast_room env0
        (RoomManager.create (RoomManager.init "lobby") "a").2
        "a" (Msg.status "hi" 0) none).1
      "a" rfl)

end LanChat
